import Mathlib

/-!
Shallow embedding of the seidr orchestrator core (src/git.rs) and proofs
about its capability model, link resolver and pipeline runner.

External effects are made explicit: the git collaborator is a function from
a spawned command to its outcome, the filesystem is a finite association
list from paths to nodes, and Rust panics are an explicit result
constructor. Each definition mirrors one item of src/git.rs and cites it.
-/

namespace Seidr

/-- Mirrors enum `RepoFlags` (src/git.rs:34-53). -/
inductive RepoFlags where
  | Clone
  | Pull
  | Add
  | Commit
  | Push
  | Quick
  | Fast
deriving DecidableEq, Repr

/-- Mirrors enum `RepoKinds` (src/git.rs:57-64). -/
inductive RepoKinds where
  | GitRepo
  | GitHubRepo
  | GitLabRepo
  | GiteaRepo
  | UrlRepo
  | Link
deriving DecidableEq, Repr

/-- Mirrors struct `Repo` (src/git.rs:108-116). -/
structure Repo where
  name : Option String
  path : Option String
  url : Option String
  kind : Option RepoKinds
  flags : Option (List RepoFlags)
deriving DecidableEq, Repr

/-- Mirrors struct `Link` (src/git.rs:99-104). -/
structure Link where
  name : String
  rx : String
  tx : String
deriving DecidableEq, Repr

/-- Mirrors struct `Category` (src/git.rs:81-95), with the maps of
`repos` and `links` embedded as lists of their values (the code only
iterates over `.values()` of the hash maps). -/
structure Category where
  flags : Option (List RepoFlags)
  repos : Option (List Repo)
  links : Option (List Link)

/-- Mirrors struct `Config` (src/git.rs:70-75): the map of categories,
embedded as the list of its values. -/
structure Config where
  categories : List Category

/-- A spawned external git command: working directory plus arguments,
as assembled by `Command::new("git").current_dir(..).arg(..)`. -/
structure GitCmd where
  dir : String
  args : List String
deriving DecidableEq, Repr

/-- Outcome of attempting to spawn an external process: the spawn itself
may fail (`Command::output()` returning `Err`), or the process runs and
exits with a success bit (`output.status.success()`). -/
inductive SpawnResult where
  | spawnFail
  | exits (success : Bool)
deriving DecidableEq, Repr

/-- The external git collaborator: what happens for each spawned command. -/
def GitEnv := GitCmd → SpawnResult

/-- Result of one repository operation: a returned boolean, or a Rust
panic carrying its message. -/
inductive OpResult where
  | ok (b : Bool)
  | panic (msg : String)
deriving DecidableEq, Repr

/-- Mirrors `Repo::clone` (src/git.rs:221-244). Returns the list of
spawned commands (empty or a singleton) together with the result.
`flags.as_ref().expect(..)` panics on `None`; the three `unwrap`s on
`path`, `url`, `name` panic on `None`; a spawn failure panics via
`unwrap_or_else`. -/
def Repo.clone (r : Repo) (env : GitEnv) : List GitCmd × OpResult :=
  match r.flags with
  | none => ([], .panic "failed to unwrap flags")
  | some fl =>
    if fl.contains RepoFlags.Clone then
      match r.path, r.url, r.name with
      | some p, some u, some n =>
        let cmd : GitCmd := ⟨p, ["clone", u, n]⟩
        match env cmd with
        | .spawnFail => ([cmd], .panic "git repo failed to clone")
        | .exits s => ([cmd], .ok s)
      | _, _, _ => ([], .panic "called unwrap on a None value")
    else
      ([], .ok false)

/-- Mirrors `Repo::pull` (src/git.rs:246-271): permitted when the flag
iterator has any element equal to `Pull` or `Fast`; working directory is
the concatenation `path ++ name`. -/
def Repo.pull (r : Repo) (env : GitEnv) : List GitCmd × OpResult :=
  match r.flags with
  | none => ([], .panic "failed to unwrap flags")
  | some fl =>
    if fl.any fun s => s == RepoFlags.Pull || s == RepoFlags.Fast then
      match r.path, r.name with
      | some p, some n =>
        let cmd : GitCmd := ⟨p ++ n, ["pull"]⟩
        match env cmd with
        | .spawnFail => ([cmd], .panic "git repo failed to pull")
        | .exits s => ([cmd], .ok s)
      | _, _ => ([], .panic "called unwrap on a None value")
    else
      ([], .ok false)

/-- Mirrors `Repo::add_all` (src/git.rs:273-299): permitted by `Add`,
`Quick` or `Fast`. -/
def Repo.add_all (r : Repo) (env : GitEnv) : List GitCmd × OpResult :=
  match r.flags with
  | none => ([], .panic "failed to unwrap flags")
  | some fl =>
    if fl.any fun s =>
        s == RepoFlags.Add || s == RepoFlags.Quick || s == RepoFlags.Fast then
      match r.path, r.name with
      | some p, some n =>
        let cmd : GitCmd := ⟨p ++ n, ["add", "."]⟩
        match env cmd with
        | .spawnFail => ([cmd], .panic "git repo failed to add")
        | .exits s => ([cmd], .ok s)
      | _, _ => ([], .panic "called unwrap on a None value")
    else
      ([], .ok false)

/-- Mirrors `Repo::commit` (src/git.rs:308-333): permitted by `Commit`,
`Quick` or `Fast`; spawns `git commit` (via `status()`). -/
def Repo.commit (r : Repo) (env : GitEnv) : List GitCmd × OpResult :=
  match r.flags with
  | none => ([], .panic "failed to unwrap flags")
  | some fl =>
    if fl.any fun s =>
        s == RepoFlags.Commit || s == RepoFlags.Quick || s == RepoFlags.Fast then
      match r.path, r.name with
      | some p, some n =>
        let cmd : GitCmd := ⟨p ++ n, ["commit"]⟩
        match env cmd with
        | .spawnFail => ([cmd], .panic "git repo failed to commit")
        | .exits s => ([cmd], .ok s)
      | _, _ => ([], .panic "called unwrap on a None value")
    else
      ([], .ok false)

/-- Mirrors `Repo::commit_with_msg` (src/git.rs:335-362): same flag check
as `commit`, spawns `git commit -m <msg>`. -/
def Repo.commit_with_msg (r : Repo) (msg : String) (env : GitEnv) :
    List GitCmd × OpResult :=
  match r.flags with
  | none => ([], .panic "failed to unwrap flags")
  | some fl =>
    if fl.any fun s =>
        s == RepoFlags.Commit || s == RepoFlags.Quick || s == RepoFlags.Fast then
      match r.path, r.name with
      | some p, some n =>
        let cmd : GitCmd := ⟨p ++ n, ["commit", "-m", msg]⟩
        match env cmd with
        | .spawnFail => ([cmd], .panic "git repo failed to commit")
        | .exits s => ([cmd], .ok s)
      | _, _ => ([], .panic "called unwrap on a None value")
    else
      ([], .ok false)

/-- Mirrors `Repo::push` (src/git.rs:364-389): permitted by `Push`,
`Quick` or `Fast`. -/
def Repo.push (r : Repo) (env : GitEnv) : List GitCmd × OpResult :=
  match r.flags with
  | none => ([], .panic "failed to unwrap flags")
  | some fl =>
    if fl.any fun s =>
        s == RepoFlags.Push || s == RepoFlags.Quick || s == RepoFlags.Fast then
      match r.path, r.name with
      | some p, some n =>
        let cmd : GitCmd := ⟨p ++ n, ["push"]⟩
        match env cmd with
        | .spawnFail => ([cmd], .panic "git repo failed to push")
        | .exits s => ([cmd], .ok s)
      | _, _ => ([], .panic "called unwrap on a None value")
    else
      ([], .ok false)

/-- The six primitive repository operations of the action set. -/
inductive GitOp where
  | clone
  | pull
  | addAll
  | commit
  | commitWithMsg (msg : String)
  | push
deriving DecidableEq

/-- Dispatches a `GitOp` to the corresponding embedded operation. -/
def runOp : GitOp → Repo → GitEnv → List GitCmd × OpResult
  | .clone, r, env => r.clone env
  | .pull, r, env => r.pull env
  | .addAll, r, env => r.add_all env
  | .commit, r, env => r.commit env
  | .commitWithMsg msg, r, env => r.commit_with_msg msg env
  | .push, r, env => r.push env

/-- The capability predicate exactly as the specification words it
(spec section 4.1): `Pull` also permitted by `Fast`; `Add`, `Commit` and
`Push` also permitted by `Quick` or `Fast`; `Clone` only by explicit
`Clone` membership; an absent flags collection permits nothing. This
definition follows the specification text, for comparison with the
operations embedded from the source. -/
def permitsSpec (op : GitOp) (flags : Option (List RepoFlags)) : Bool :=
  match flags with
  | none => false
  | some fl =>
    match op with
    | .clone => decide (RepoFlags.Clone ∈ fl)
    | .pull => decide (RepoFlags.Pull ∈ fl) || decide (RepoFlags.Fast ∈ fl)
    | .addAll =>
        decide (RepoFlags.Add ∈ fl) || decide (RepoFlags.Quick ∈ fl) ||
          decide (RepoFlags.Fast ∈ fl)
    | .commit =>
        decide (RepoFlags.Commit ∈ fl) || decide (RepoFlags.Quick ∈ fl) ||
          decide (RepoFlags.Fast ∈ fl)
    | .commitWithMsg _ =>
        decide (RepoFlags.Commit ∈ fl) || decide (RepoFlags.Quick ∈ fl) ||
          decide (RepoFlags.Fast ∈ fl)
    | .push =>
        decide (RepoFlags.Push ∈ fl) || decide (RepoFlags.Quick ∈ fl) ||
          decide (RepoFlags.Fast ∈ fl)

lemma contains_iff_mem (fl : List RepoFlags) (a : RepoFlags) :
    fl.contains a = true ↔ a ∈ fl := by
  simp [List.contains, List.elem_iff]

lemma any_pair_iff (fl : List RepoFlags) (a b : RepoFlags) :
    (fl.any fun s => s == a || s == b) = true ↔ a ∈ fl ∨ b ∈ fl := by
  simp only [List.any_eq_true, Bool.or_eq_true, beq_iff_eq]
  constructor
  · rintro ⟨x, hx, rfl | rfl⟩
    · exact Or.inl hx
    · exact Or.inr hx
  · rintro (h | h)
    · exact ⟨a, h, Or.inl rfl⟩
    · exact ⟨b, h, Or.inr rfl⟩

lemma any_triple_iff (fl : List RepoFlags) (a b c : RepoFlags) :
    (fl.any fun s => s == a || s == b || s == c) = true ↔
      a ∈ fl ∨ b ∈ fl ∨ c ∈ fl := by
  simp only [List.any_eq_true, Bool.or_eq_true, beq_iff_eq]
  constructor
  · rintro ⟨x, hx, (rfl | rfl) | rfl⟩
    · exact Or.inl hx
    · exact Or.inr (Or.inl hx)
    · exact Or.inr (Or.inr hx)
  · rintro (h | h | h)
    · exact ⟨a, h, Or.inl (Or.inl rfl)⟩
    · exact ⟨b, h, Or.inl (Or.inr rfl)⟩
    · exact ⟨c, h, Or.inr rfl⟩

lemma permits_clone_eq (fl : List RepoFlags) :
    permitsSpec GitOp.clone (some fl) = fl.contains RepoFlags.Clone := by
  rw [Bool.eq_iff_iff, contains_iff_mem]
  simp [permitsSpec]

lemma permits_pull_eq (fl : List RepoFlags) :
    permitsSpec GitOp.pull (some fl) =
      (fl.any fun s => s == RepoFlags.Pull || s == RepoFlags.Fast) := by
  rw [Bool.eq_iff_iff, any_pair_iff]
  simp [permitsSpec]

lemma permits_addAll_eq (fl : List RepoFlags) :
    permitsSpec GitOp.addAll (some fl) =
      (fl.any fun s =>
        s == RepoFlags.Add || s == RepoFlags.Quick || s == RepoFlags.Fast) := by
  rw [Bool.eq_iff_iff, any_triple_iff]
  simp [permitsSpec, or_assoc]

lemma permits_commit_eq (fl : List RepoFlags) :
    permitsSpec GitOp.commit (some fl) =
      (fl.any fun s =>
        s == RepoFlags.Commit || s == RepoFlags.Quick || s == RepoFlags.Fast) := by
  rw [Bool.eq_iff_iff, any_triple_iff]
  simp [permitsSpec, or_assoc]

lemma permits_commitWithMsg_eq (msg : String) (fl : List RepoFlags) :
    permitsSpec (GitOp.commitWithMsg msg) (some fl) =
      (fl.any fun s =>
        s == RepoFlags.Commit || s == RepoFlags.Quick || s == RepoFlags.Fast) := by
  rw [Bool.eq_iff_iff, any_triple_iff]
  simp [permitsSpec, or_assoc]

lemma permits_push_eq (fl : List RepoFlags) :
    permitsSpec GitOp.push (some fl) =
      (fl.any fun s =>
        s == RepoFlags.Push || s == RepoFlags.Quick || s == RepoFlags.Fast) := by
  rw [Bool.eq_iff_iff, any_triple_iff]
  simp [permitsSpec, or_assoc]

/-- C1: for a repository whose required fields are present, every primitive
operation spawns the external git process exactly when the flag set permits
the operation in the sense of the specification (Pull permitted by Pull or
Fast; Add, Commit and Push by the respective flag or Quick or Fast; Clone
only by explicit Clone); when not permitted, no subprocess is spawned and
the operation returns false. -/
theorem C1_spawn_iff_permits (op : GitOp) (r : Repo) (env : GitEnv)
    (fl : List RepoFlags) (n p u : String)
    (hf : r.flags = some fl) (hn : r.name = some n) (hp : r.path = some p)
    (hu : r.url = some u) :
    ((runOp op r env).1 ≠ [] ↔ permitsSpec op r.flags = true) ∧
    (permitsSpec op r.flags = false → runOp op r env = ([], OpResult.ok false)) := by
  cases op with
  | clone =>
    rw [hf]
    by_cases hm : RepoFlags.Clone ∈ fl
    · simp only [runOp, Repo.clone, hf, hn, hp, hu]
      cases henv : env ⟨p, ["clone", u, n]⟩ <;> simp [permitsSpec, hm, henv]
    · simp [runOp, Repo.clone, hf, permitsSpec, hm]
  | pull =>
    rw [hf, permits_pull_eq]
    cases hc : fl.any fun s => s == RepoFlags.Pull || s == RepoFlags.Fast with
    | false => simp [runOp, Repo.pull, hf, hc]
    | true =>
      simp only [runOp, Repo.pull, hf, hn, hp, hc, if_true]
      cases henv : env ⟨p ++ n, ["pull"]⟩ <;> simp [henv]
  | addAll =>
    rw [hf, permits_addAll_eq]
    cases hc : fl.any fun s =>
        s == RepoFlags.Add || s == RepoFlags.Quick || s == RepoFlags.Fast with
    | false => simp [runOp, Repo.add_all, hf, hc]
    | true =>
      simp only [runOp, Repo.add_all, hf, hn, hp, hc, if_true]
      cases henv : env ⟨p ++ n, ["add", "."]⟩ <;> simp [henv]
  | commit =>
    rw [hf, permits_commit_eq]
    cases hc : fl.any fun s =>
        s == RepoFlags.Commit || s == RepoFlags.Quick || s == RepoFlags.Fast with
    | false => simp [runOp, Repo.commit, hf, hc]
    | true =>
      simp only [runOp, Repo.commit, hf, hn, hp, hc, if_true]
      cases henv : env ⟨p ++ n, ["commit"]⟩ <;> simp [henv]
  | commitWithMsg msg =>
    rw [hf, permits_commitWithMsg_eq]
    cases hc : fl.any fun s =>
        s == RepoFlags.Commit || s == RepoFlags.Quick || s == RepoFlags.Fast with
    | false => simp [runOp, Repo.commit_with_msg, hf, hc]
    | true =>
      simp only [runOp, Repo.commit_with_msg, hf, hn, hp, hc, if_true]
      cases henv : env ⟨p ++ n, ["commit", "-m", msg]⟩ <;> simp [henv]
  | push =>
    rw [hf, permits_push_eq]
    cases hc : fl.any fun s =>
        s == RepoFlags.Push || s == RepoFlags.Quick || s == RepoFlags.Fast with
    | false => simp [runOp, Repo.push, hf, hc]
    | true =>
      simp only [runOp, Repo.push, hf, hn, hp, hc, if_true]
      cases henv : env ⟨p ++ n, ["push"]⟩ <;> simp [henv]

/-- A git collaborator in which every spawn succeeds and exits zero. -/
def envOk : GitEnv := fun _ => SpawnResult.exits true

/-- A git collaborator in which every spawn attempt fails. -/
def envDown : GitEnv := fun _ => SpawnResult.spawnFail

/-- A repository whose flag collection is entirely absent. -/
def repoNoFlags : Repo :=
  ⟨some "gg", some "/tmp/", some "u", some RepoKinds.GitRepo, none⟩

/-- A repository with only the Clone capability. -/
def repoCloneFlag : Repo :=
  ⟨some "gg", some "/tmp/", some "u", some RepoKinds.GitRepo,
    some [RepoFlags.Clone]⟩

/-- A repository with only the Pull capability. -/
def repoPullFlag : Repo :=
  ⟨some "gg", some "/tmp/", some "u", some RepoKinds.GitRepo,
    some [RepoFlags.Pull]⟩

/-- Witness for C1 at a concrete repository, operation and collaborator. -/
theorem C1_spawn_iff_permits_witness :
    ((runOp GitOp.clone repoCloneFlag envOk).1 ≠ [] ↔
      permitsSpec GitOp.clone repoCloneFlag.flags = true) ∧
    (permitsSpec GitOp.clone repoCloneFlag.flags = false →
      runOp GitOp.clone repoCloneFlag envOk = ([], OpResult.ok false)) :=
  C1_spawn_iff_permits GitOp.clone repoCloneFlag envOk [RepoFlags.Clone]
    "gg" "/tmp/" "u" rfl rfl rfl rfl

/-- C5 counterexample: on a repository whose flags collection is absent,
the pull operation panics while unwrapping the flags instead of returning
false, so the capability check can fail. -/
theorem C5_counterexample :
    (Repo.pull repoNoFlags envOk).2 = OpResult.panic "failed to unwrap flags" ∧
    (Repo.pull repoNoFlags envOk).2 ≠ OpResult.ok false := by
  exact ⟨rfl, by decide⟩

/-- C5 as amended: for every repository whose flags collection is entirely
absent, every primitive operation panics while unwrapping the flags
(spawning no subprocess) instead of returning false. -/
theorem C5_flags_none_panics (op : GitOp) (r : Repo) (env : GitEnv)
    (h : r.flags = none) :
    runOp op r env = ([], OpResult.panic "failed to unwrap flags") := by
  cases op <;>
    simp [runOp, Repo.clone, Repo.pull, Repo.add_all, Repo.commit,
      Repo.commit_with_msg, Repo.push, h]

/-- Witness for the amended C5 at a concrete repository. -/
theorem C5_flags_none_panics_witness :
    repoNoFlags.flags = none ∧
    runOp GitOp.pull repoNoFlags envOk =
      ([], OpResult.panic "failed to unwrap flags") :=
  ⟨rfl, C5_flags_none_panics GitOp.pull repoNoFlags envOk rfl⟩

/-- C6 counterexample: on a repository permitted to pull, a failed spawn of
the git process makes the operation panic; it is not reported as a failed
step returning false. -/
theorem C6_counterexample :
    (Repo.pull repoPullFlag envDown).2 = OpResult.panic "git repo failed to pull" ∧
    (Repo.pull repoPullFlag envDown).2 ≠ OpResult.ok false := by
  exact ⟨rfl, by decide⟩

/-- C6 as amended: for every permitted primitive operation, failure to
spawn the external git process causes a panic (which in Rust aborts the
whole run) rather than being treated like a non-zero exit of a spawned
process. -/
theorem C6_spawn_failure_panics (op : GitOp) (r : Repo) (env : GitEnv)
    (fl : List RepoFlags) (n p u : String)
    (hf : r.flags = some fl) (hn : r.name = some n) (hp : r.path = some p)
    (hu : r.url = some u)
    (hperm : permitsSpec op r.flags = true)
    (henv : ∀ c, env c = SpawnResult.spawnFail) :
    ∃ m, (runOp op r env).2 = OpResult.panic m := by
  rw [hf] at hperm
  cases op with
  | clone =>
    rw [permits_clone_eq] at hperm
    have hm : RepoFlags.Clone ∈ fl := (contains_iff_mem fl _).mp hperm
    exact ⟨"git repo failed to clone",
      by simp [runOp, Repo.clone, hf, hn, hp, hu, hm, henv]⟩
  | pull =>
    rw [permits_pull_eq] at hperm
    exact ⟨"git repo failed to pull",
      by simp [runOp, Repo.pull, hf, hn, hp, hperm, henv]⟩
  | addAll =>
    rw [permits_addAll_eq] at hperm
    exact ⟨"git repo failed to add",
      by simp [runOp, Repo.add_all, hf, hn, hp, hperm, henv]⟩
  | commit =>
    rw [permits_commit_eq] at hperm
    exact ⟨"git repo failed to commit",
      by simp [runOp, Repo.commit, hf, hn, hp, hperm, henv]⟩
  | commitWithMsg msg =>
    rw [permits_commitWithMsg_eq] at hperm
    exact ⟨"git repo failed to commit",
      by simp [runOp, Repo.commit_with_msg, hf, hn, hp, hperm, henv]⟩
  | push =>
    rw [permits_push_eq] at hperm
    exact ⟨"git repo failed to push",
      by simp [runOp, Repo.push, hf, hn, hp, hperm, henv]⟩

/-- Witness for the amended C6 at a concrete repository and collaborator. -/
theorem C6_spawn_failure_panics_witness :
    permitsSpec GitOp.pull repoPullFlag.flags = true ∧
    ∃ m, (runOp GitOp.pull repoPullFlag envDown).2 = OpResult.panic m :=
  ⟨by decide,
    C6_spawn_failure_panics GitOp.pull repoPullFlag envDown [RepoFlags.Pull]
      "gg" "/tmp/" "u" rfl rfl rfl rfl (by decide) (fun _ => rfl)⟩

/-- A node of the modelled filesystem: a non-symlink entry (regular file
or directory), or a symbolic link with a target path. -/
inductive FsNode where
  | file
  | symlink (target : String)
deriving DecidableEq, Repr

/-- The filesystem as a finite association list from paths to nodes;
paths are opaque atoms. -/
abbrev Fs := List (String × FsNode)

/-- First-match lookup of a path in the filesystem. -/
def fsLookup : Fs → String → Option FsNode
  | [], _ => none
  | (k, v) :: rest, q => if k = q then some v else fsLookup rest q

/-- Fuel-bounded resolution of a path through symlink chains to its final
existing non-symlink entry; `none` when the path or any link target is
missing (or the chain loops past the fuel). -/
def resolve (fs : Fs) : Nat → String → Option String
  | 0, _ => none
  | fuel + 1, q =>
    match fsLookup fs q with
    | none => none
    | some FsNode.file => some q
    | some (FsNode.symlink t) => resolve fs fuel t

/-- Models `Path::canonicalize`: the fully resolved path, or failure when
resolution fails. A fuel of one more than the filesystem size suffices for
every loop-free chain. -/
def canonicalize (fs : Fs) (q : String) : Option String :=
  resolve fs (fs.length + 1) q

/-- Models `Path::try_exists`, which follows symlinks: a dangling symlink
does not exist. -/
def tryExists (fs : Fs) (q : String) : Bool :=
  (canonicalize fs q).isSome

/-- Models `Path::is_symlink`: whether the entry itself is a symlink,
without following it. -/
def isSymlink (fs : Fs) (q : String) : Bool :=
  match fsLookup fs q with
  | some (FsNode.symlink _) => true
  | _ => false

/-- Models `Path::read_link`: the immediate target of a symlink entry,
failure for a missing path or a non-symlink entry. -/
def readLink (fs : Fs) (q : String) : Option String :=
  match fsLookup fs q with
  | some (FsNode.symlink t) => some t
  | _ => none

/-- Mirrors enum `LinkError` (src/git.rs:126-134); the `std::io::Error`
payload of `IoError` is abstracted away. -/
inductive LinkError where
  | AlreadyLinked (tx rx : String)
  | DifferentLink (tx rx : String)
  | FileExists (tx rx : String)
  | BrokenSymlinkExists (tx rx : String)
  | FailedCreatingLink (tx rx : String)
  | IoError
deriving DecidableEq, Repr

/-- Result of the link operation: the returned boolean, a returned
`LinkError`, or a Rust panic with its message. -/
inductive LinkOutcome where
  | ok (b : Bool)
  | err (e : LinkError)
  | panicked (msg : String)
deriving DecidableEq, Repr

/-- Mirrors `handle_file_exists` (src/git.rs:173-193): reads the link at
`rx`; if that succeeds, compares the canonicalized target with the
canonicalized `tx` (each `expect` panics when canonicalization fails),
yielding `AlreadyLinked` on equality and `DifferentLink` otherwise; a
failed `read_link` yields `FileExists`. -/
def handle_file_exists (l : Link) (fs : Fs) : LinkOutcome :=
  match readLink fs l.rx with
  | some file =>
    match canonicalize fs file with
    | none => .panicked "failed to canonicalize file"
    | some cf =>
      match canonicalize fs l.tx with
      | none => .panicked "failed to canonicalize path"
      | some ct =>
        if cf = ct then .err (.AlreadyLinked l.tx l.rx)
        else .err (.DifferentLink l.tx l.rx)
  | none => .err (.FileExists l.tx l.rx)

/-- Mirrors `Link::link` (src/git.rs:197-216). `probeErr` injects the
`Err` outcome of `rx_path.try_exists()`, `createErr` the failure of the
`symlink` syscall (whose `std::io::Error` converts into `IoError` through
the `From` impl at src/git.rs:167-171 via the question-mark operator).
Returns the filesystem after the call together with the outcome. -/
def Link.link (l : Link) (fs : Fs) (probeErr createErr : Bool) :
    Fs × LinkOutcome :=
  if probeErr then (fs, .err (.FailedCreatingLink l.tx l.rx))
  else if tryExists fs l.rx then (fs, handle_file_exists l fs)
  else if isSymlink fs l.rx then (fs, .err (.FileExists l.tx l.rx))
  else if createErr then (fs, .err .IoError)
  else ((l.rx, FsNode.symlink l.tx) :: fs, .ok true)

/-- Mirrors the per-error reporting of `Config::on_all_links_spinner`
(src/git.rs:604-628): which `LinkError` values stop the spinner with the
success marker rather than the failure marker. -/
def link_err_shown_success : LinkError → Bool
  | .AlreadyLinked _ _ => true
  | .DifferentLink _ _ => false
  | .FileExists _ _ => false
  | .BrokenSymlinkExists _ _ => false
  | .FailedCreatingLink _ _ => false
  | .IoError => false

lemma tryExists_of_file (fs : Fs) (q : String)
    (h : fsLookup fs q = some FsNode.file) : tryExists fs q = true := by
  simp [tryExists, canonicalize, resolve, h]

/-- The dangling-symlink scenario of C2: `/l` is a symlink to the missing
path `/m`, while the payload `/t` exists. -/
def fsDangling : Fs := [("/t", FsNode.file), ("/l", FsNode.symlink "/m")]

/-- The link under test for the link-resolver claims. -/
def linkLT : Link := ⟨"l", "/l", "/t"⟩

/-- C2: the link operation on an `rx` that is a dangling symlink returns
`FileExists`, not `BrokenSymlinkExists`; indeed no input whatsoever makes
the operation return `BrokenSymlinkExists`, although that variant is
declared, displayed and matched by the reporting code. -/
theorem C2_dangling_gives_FileExists :
    (Link.link linkLT fsDangling false false).2 =
      LinkOutcome.err (LinkError.FileExists "/t" "/l") ∧
    (Link.link linkLT fsDangling false false).2 ≠
      LinkOutcome.err (LinkError.BrokenSymlinkExists "/t" "/l") ∧
    ∀ (l : Link) (fs : Fs) (pe ce : Bool) (a b : String),
      (Link.link l fs pe ce).2 ≠
        LinkOutcome.err (LinkError.BrokenSymlinkExists a b) := by
  refine ⟨by decide, by decide, ?_⟩
  intro l fs pe ce a b h
  have hh : ∀ lk fsx, handle_file_exists lk fsx ≠
      LinkOutcome.err (LinkError.BrokenSymlinkExists a b) := by
    intro lk fsx
    unfold handle_file_exists
    rcases hr : readLink fsx lk.rx with _ | file
    · simp [hr]
    · rcases h1 : canonicalize fsx file with _ | cf
      · simp [hr, h1]
      · rcases h2 : canonicalize fsx lk.tx with _ | ct
        · simp [hr, h1, h2]
        · by_cases hc : cf = ct <;> simp [hr, h1, h2, hc]
  unfold Link.link at h
  cases pe with
  | true => simp at h
  | false =>
    simp only [Bool.false_eq_true, if_false] at h
    cases ht : tryExists fs l.rx with
    | true =>
      rw [ht] at h
      simp only [if_true] at h
      exact hh l fs h
    | false =>
      rw [ht] at h
      simp only [Bool.false_eq_true, if_false] at h
      cases hs : isSymlink fs l.rx with
      | true => rw [hs] at h; simp at h
      | false =>
        rw [hs] at h
        simp only [Bool.false_eq_true, if_false] at h
        cases ce with
        | true => simp at h
        | false => simp at h

/-- A filesystem in which the payload `/t` exists and the receiver `/l`
is absent. -/
def fsNoRx : Fs := [("/t", FsNode.file)]

/-- A filesystem in which the receiver `/l` is a regular file. -/
def fsRxFile : Fs := [("/l", FsNode.file)]

/-- A filesystem in which `/l` is already a symlink to the payload `/t`. -/
def fsLinked : Fs := [("/t", FsNode.file), ("/l", FsNode.symlink "/t")]

/-- C3 counterexample: with `rx` absent and the symlink syscall failing,
the link operation surfaces `IoError` (through the From conversion of the
underlying I/O error), not `FailedCreatingLink`. -/
theorem C3_counterexample :
    Link.link linkLT fsNoRx false true =
      (fsNoRx, LinkOutcome.err LinkError.IoError) ∧
    (Link.link linkLT fsNoRx false true).2 ≠
      LinkOutcome.err (LinkError.FailedCreatingLink "/t" "/l") := by
  exact ⟨by decide, by decide⟩

/-- C3 as amended: for every link whose `rx` does not exist and is not a
dangling symlink, the operation calls the OS symlink primitive creating
`rx` as a symlink to `tx` and returns success; it fails only when that
syscall fails, and then the failure is surfaced as `IoError` wrapping the
underlying cause (while `FailedCreatingLink` is what a failed probe of
`rx` produces). -/
theorem C3_create_or_io_error (l : Link) (fs : Fs) (createErr : Bool)
    (h1 : tryExists fs l.rx = false) (h2 : isSymlink fs l.rx = false) :
    Link.link l fs false createErr =
      if createErr then (fs, LinkOutcome.err LinkError.IoError)
      else ((l.rx, FsNode.symlink l.tx) :: fs, LinkOutcome.ok true) := by
  cases createErr <;> simp [Link.link, h1, h2]

/-- Witness for the amended C3 at a concrete link and filesystem. -/
theorem C3_create_or_io_error_witness :
    tryExists fsNoRx linkLT.rx = false ∧
    isSymlink fsNoRx linkLT.rx = false ∧
    Link.link linkLT fsNoRx false false =
      if false then (fsNoRx, LinkOutcome.err LinkError.IoError)
      else ((linkLT.rx, FsNode.symlink linkLT.tx) :: fsNoRx, LinkOutcome.ok true) :=
  ⟨rfl, rfl, C3_create_or_io_error linkLT fsNoRx false rfl rfl⟩

/-- C7: when `rx` exists as a regular file, as a symlink whose
canonicalized target differs from the canonicalized `tx`, or as a
dangling symlink, the link operation leaves the filesystem unchanged and
returns a failure. -/
theorem C7_conflicts_do_not_mutate (l : Link) (fs : Fs) (createErr : Bool)
    (h : fsLookup fs l.rx = some FsNode.file
        ∨ (∃ t c c', fsLookup fs l.rx = some (FsNode.symlink t) ∧
            tryExists fs l.rx = true ∧ canonicalize fs t = some c ∧
            canonicalize fs l.tx = some c' ∧ c ≠ c')
        ∨ (∃ t, fsLookup fs l.rx = some (FsNode.symlink t) ∧
            tryExists fs l.rx = false)) :
    (Link.link l fs false createErr).1 = fs ∧
    ∃ e, (Link.link l fs false createErr).2 = LinkOutcome.err e := by
  rcases h with hfile | ⟨t, c, c', hlk, hex, hct, hctx, hne⟩ | ⟨t, hlk, hex⟩
  · have hex := tryExists_of_file fs l.rx hfile
    have hread : readLink fs l.rx = none := by simp [readLink, hfile]
    refine ⟨?_, LinkError.FileExists l.tx l.rx, ?_⟩ <;>
      simp [Link.link, hex, handle_file_exists, hread]
  · have hread : readLink fs l.rx = some t := by simp [readLink, hlk]
    refine ⟨?_, LinkError.DifferentLink l.tx l.rx, ?_⟩ <;>
      simp [Link.link, hex, handle_file_exists, hread, hct, hctx, hne]
  · have hs : isSymlink fs l.rx = true := by simp [isSymlink, hlk]
    refine ⟨?_, LinkError.FileExists l.tx l.rx, ?_⟩ <;>
      simp [Link.link, hex, hs]

/-- Witness for C7 in the regular-file conflict case. -/
theorem C7_conflicts_do_not_mutate_witness :
    fsLookup fsRxFile linkLT.rx = some FsNode.file ∧
    ((Link.link linkLT fsRxFile false false).1 = fsRxFile ∧
      ∃ e, (Link.link linkLT fsRxFile false false).2 = LinkOutcome.err e) :=
  ⟨rfl, C7_conflicts_do_not_mutate linkLT fsRxFile false (Or.inl rfl)⟩

/-- C8: when `rx` exists as a symlink whose canonicalized target equals
the canonicalized `tx`, the link operation yields `AlreadyLinked` and
leaves the filesystem unchanged, and `AlreadyLinked` is the only
`LinkError` the reporting code shows with the success marker. -/
theorem C8_already_linked_success (l : Link) (fs : Fs) (createErr : Bool)
    (t c : String)
    (hlk : fsLookup fs l.rx = some (FsNode.symlink t))
    (hex : tryExists fs l.rx = true)
    (hct : canonicalize fs t = some c)
    (hctx : canonicalize fs l.tx = some c) :
    Link.link l fs false createErr =
      (fs, LinkOutcome.err (LinkError.AlreadyLinked l.tx l.rx)) ∧
    link_err_shown_success (LinkError.AlreadyLinked l.tx l.rx) = true ∧
    ∀ e : LinkError, link_err_shown_success e = true →
      ∃ a b, e = LinkError.AlreadyLinked a b := by
  refine ⟨?_, rfl, ?_⟩
  · have hread : readLink fs l.rx = some t := by simp [readLink, hlk]
    simp [Link.link, hex, handle_file_exists, hread, hct, hctx]
  · intro e he
    cases e <;>
      first
        | exact ⟨_, _, rfl⟩
        | simp [link_err_shown_success] at he

/-- Witness for C8 at a concrete already-linked filesystem. -/
theorem C8_already_linked_success_witness :
    fsLookup fsLinked linkLT.rx = some (FsNode.symlink "/t") ∧
    tryExists fsLinked linkLT.rx = true ∧
    canonicalize fsLinked "/t" = some "/t" ∧
    canonicalize fsLinked linkLT.tx = some "/t" ∧
    Link.link linkLT fsLinked false false =
      (fsLinked, LinkOutcome.err (LinkError.AlreadyLinked "/t" "/l")) :=
  ⟨rfl, rfl, rfl, rfl,
    (C8_already_linked_success linkLT fsLinked false "/t" "/t"
      rfl rfl rfl rfl).1⟩

/-- Mirrors struct `SeriesItem` (src/git.rs:119-124): a named operation
together with its closure; the closure result is an `OpResult` so that a
panic inside an operation propagates through the runner. -/
structure SeriesItem where
  operation : String
  closure : Repo → OpResult

/-- The inner loop of `Config::all_on_all` (src/git.rs:680-705) on a
single repository of kind GitRepo: runs the closures in order and records
each executed operation name. Outside quiet mode a step returning false
breaks out of the loop when `break_on_err` is set; in quiet mode the
result is ignored and the loop always continues; a panic inside a closure
aborts immediately and is reported in the second component. -/
def run_series_on_repo (quiet bke : Bool) :
    List SeriesItem → Repo → List String × Option String
  | [], _ => ([], none)
  | i :: rest, r =>
    match i.closure r with
    | .panic m => ([i.operation], some m)
    | .ok b =>
      if quiet then
        let res := run_series_on_repo quiet bke rest r
        (i.operation :: res.1, res.2)
      else if b then
        let res := run_series_on_repo quiet bke rest r
        (i.operation :: res.1, res.2)
      else if bke then ([i.operation], none)
      else
        let res := run_series_on_repo quiet bke rest r
        (i.operation :: res.1, res.2)

/-- The per-repository dispatch of `Config::all_on_all`
(src/git.rs:677-713): only a repository of kind `Some(GitRepo)` runs the
series; any other kind merely prints a message and runs no closure. The
trace pairs the repository with each executed operation name. -/
def run_repo (quiet bke : Bool) (items : List SeriesItem) (r : Repo) :
    List (Repo × String) × Option String :=
  match r.kind with
  | some RepoKinds.GitRepo =>
    let res := run_series_on_repo quiet bke items r
    (res.1.map (fun op => (r, op)), res.2)
  | _ => ([], none)

/-- The repository loop of `Config::all_on_all`: a panic aborts the whole
run, otherwise traces are concatenated. -/
def run_repos (quiet bke : Bool) (items : List SeriesItem) :
    List Repo → List (Repo × String) × Option String
  | [] => ([], none)
  | r :: rs =>
    let res := run_repo quiet bke items r
    match res.2 with
    | some m => (res.1, some m)
    | none =>
      let res2 := run_repos quiet bke items rs
      (res.1 ++ res2.1, res2.2)

/-- The category loop of `Config::all_on_all` (src/git.rs:674-676): a
category without a repository map contributes the injected empty map. -/
def run_cats (quiet bke : Bool) (items : List SeriesItem) :
    List Category → List (Repo × String) × Option String
  | [] => ([], none)
  | cat :: cats =>
    let res := run_repos quiet bke items (cat.repos.getD [])
    match res.2 with
    | some m => (res.1, some m)
    | none =>
      let res2 := run_cats quiet bke items cats
      (res.1 ++ res2.1, res2.2)

/-- Mirrors `Config::all_on_all` (src/git.rs:669-716), with the quiet
setting passed explicitly instead of read from the global atomic. -/
def all_on_all (quiet bke : Bool) (items : List SeriesItem) (c : Config) :
    List (Repo × String) × Option String :=
  run_cats quiet bke items c.categories

/-- One category of `Config::on_all_repos_spinner` (src/git.rs:559-591):
`f` runs on every repository of the category, in both the spinner and the
quiet branch, with no break; a panic aborts. -/
def on_all_repos_go (_quiet : Bool) (f : Repo → OpResult) :
    List Repo → List Repo × Option String
  | [] => ([], none)
  | r :: rs =>
    match f r with
    | .panic m => ([r], some m)
    | .ok _ =>
      let res := on_all_repos_go _quiet f rs
      (r :: res.1, res.2)

/-- Mirrors `Config::on_all_repos_spinner` (src/git.rs:559-591): every
category with a repository map contributes all its repositories,
regardless of their kind; categories without one are skipped. -/
def on_all_repos_spinner (quiet : Bool) (f : Repo → OpResult) :
    List Category → List Repo × Option String
  | [] => ([], none)
  | cat :: cats =>
    match cat.repos with
    | none => on_all_repos_spinner quiet f cats
    | some repos =>
      let res := on_all_repos_go quiet f repos
      match res.2 with
      | some m => (res.1, some m)
      | none =>
        let res2 := on_all_repos_spinner quiet f cats
        (res.1 ++ res2.1, res2.2)

/-- All repositories of a category list, categories without a repository
map contributing none. -/
def config_repos : List Category → List Repo
  | [] => []
  | cat :: cats => cat.repos.getD [] ++ config_repos cats

/-- The four-step series built by `Config::quick` and `Config::fast`
(src/git.rs:774-791 and 798-815): pull, add, commit with message, push. -/
def series_qf (msg : String) (env : GitEnv) : List SeriesItem :=
  [⟨"pull", fun r => (Repo.pull r env).2⟩,
    ⟨"add", fun r => (Repo.add_all r env).2⟩,
    ⟨"commit", fun r => (Repo.commit_with_msg r msg env).2⟩,
    ⟨"push", fun r => (Repo.push r env).2⟩]

/-- Mirrors `Config::quick` (src/git.rs:772-793): the series with
`break_on_err` false. -/
def Config.quick (c : Config) (msg : String) (env : GitEnv) (quiet : Bool) :
    List (Repo × String) × Option String :=
  all_on_all quiet false (series_qf msg env) c

/-- Mirrors `Config::fast` (src/git.rs:796-817): the same series with
`break_on_err` true. -/
def Config.fast (c : Config) (msg : String) (env : GitEnv) (quiet : Bool) :
    List (Repo × String) × Option String :=
  all_on_all quiet true (series_qf msg env) c

/-- Mirrors `Config::pull_all` (src/git.rs:746-749). -/
def Config.pull_all (c : Config) (env : GitEnv) (quiet : Bool) :
    List Repo × Option String :=
  on_all_repos_spinner quiet (fun r => (Repo.pull r env).2) c.categories

/-- Mirrors `Config::clone_all` (src/git.rs:751-754). -/
def Config.clone_all (c : Config) (env : GitEnv) (quiet : Bool) :
    List Repo × Option String :=
  on_all_repos_spinner quiet (fun r => (Repo.clone r env).2) c.categories

/-- Mirrors `Config::add_all` (src/git.rs:756-759). -/
def Config.add_all (c : Config) (env : GitEnv) (quiet : Bool) :
    List Repo × Option String :=
  on_all_repos_spinner quiet (fun r => (Repo.add_all r env).2) c.categories

/-- Mirrors `Config::commit_all` (src/git.rs:761-764). -/
def Config.commit_all (c : Config) (env : GitEnv) (quiet : Bool) :
    List Repo × Option String :=
  on_all_repos_spinner quiet (fun r => (Repo.commit r env).2) c.categories

/-- Mirrors `Config::commit_all_msg` (src/git.rs:766-769). -/
def Config.commit_all_msg (c : Config) (msg : String) (env : GitEnv)
    (quiet : Bool) : List Repo × Option String :=
  on_all_repos_spinner quiet (fun r => (Repo.commit_with_msg r msg env).2)
    c.categories

lemma run_series_all_ok (quiet bke : Bool) (items : List SeriesItem)
    (r : Repo) (h : ∀ i ∈ items, ∃ b, i.closure r = OpResult.ok b)
    (hq : quiet = true ∨ bke = false) :
    run_series_on_repo quiet bke items r =
      (items.map (fun i => i.operation), none) := by
  induction items with
  | nil => rfl
  | cons i rest ih =>
    obtain ⟨b, hb⟩ := h i (List.mem_cons_self i rest)
    have hrest := ih (fun j hj => h j (List.mem_cons_of_mem i hj))
    rcases hq with hq | hq
    · subst hq
      simp [run_series_on_repo, hb, hrest]
    · subst hq
      cases quiet with
      | true => simp [run_series_on_repo, hb, hrest]
      | false => cases b <;> simp [run_series_on_repo, hb, hrest]

lemma run_series_stops_at_first_false (pre : List SeriesItem)
    (fi : SeriesItem) (post : List SeriesItem) (r : Repo)
    (hpre : ∀ i ∈ pre, i.closure r = OpResult.ok true)
    (hfail : fi.closure r = OpResult.ok false) :
    run_series_on_repo false true (pre ++ fi :: post) r =
      ((pre ++ [fi]).map (fun i => i.operation), none) := by
  induction pre with
  | nil => simp [run_series_on_repo, hfail]
  | cons i rest ih =>
    have hi := hpre i (List.mem_cons_self i rest)
    simp [run_series_on_repo, hi,
      ih (fun j hj => hpre j (List.mem_cons_of_mem i hj))]

/-- C4: with the quiet setting off (its default), a repository of kind
GitRepo whose steps succeed up to a first failing step has, in
stop-on-error mode, exactly the steps up to and including the failure
executed while the repositories after it still run unchanged; in
continue-on-error mode every step of the series is executed. -/
theorem C4_fast_stops_quick_continues (pre post : List SeriesItem)
    (fi : SeriesItem) (r : Repo) (rs : List Repo)
    (hk : r.kind = some RepoKinds.GitRepo)
    (hpre : ∀ i ∈ pre, i.closure r = OpResult.ok true)
    (hfail : fi.closure r = OpResult.ok false)
    (hpost : ∀ i ∈ post, ∃ b, i.closure r = OpResult.ok b) :
    run_series_on_repo false true (pre ++ fi :: post) r =
      ((pre ++ [fi]).map (fun i => i.operation), none) ∧
    run_repos false true (pre ++ fi :: post) (r :: rs) =
      (((pre ++ [fi]).map (fun i => i.operation)).map (fun op => (r, op)) ++
          (run_repos false true (pre ++ fi :: post) rs).1,
        (run_repos false true (pre ++ fi :: post) rs).2) ∧
    run_series_on_repo false false (pre ++ fi :: post) r =
      ((pre ++ fi :: post).map (fun i => i.operation), none) := by
  have h1 := run_series_stops_at_first_false pre fi post r hpre hfail
  refine ⟨h1, ?_, ?_⟩
  · have h2 : run_repo false true (pre ++ fi :: post) r =
        (((pre ++ [fi]).map (fun i => i.operation)).map (fun op => (r, op)),
          none) := by
      simp [run_repo, hk, h1]
    simp [run_repos, h2]
  · refine run_series_all_ok false false _ r ?_ (Or.inr rfl)
    intro i hi
    rcases List.mem_append.mp hi with hi | hi
    · exact ⟨true, hpre i hi⟩
    · rcases List.mem_cons.mp hi with rfl | hi
      · exact ⟨false, hfail⟩
      · exact hpost i hi

/-- A step that always succeeds, displayed as a pull. -/
def itemPull : SeriesItem := ⟨"pull", fun _ => OpResult.ok true⟩

/-- A step that always fails (returns false), displayed as an add. -/
def itemAdd : SeriesItem := ⟨"add", fun _ => OpResult.ok false⟩

/-- A step that always succeeds, displayed as a commit. -/
def itemCommit : SeriesItem := ⟨"commit", fun _ => OpResult.ok true⟩

/-- A step that always succeeds, displayed as a push. -/
def itemPush : SeriesItem := ⟨"push", fun _ => OpResult.ok true⟩

/-- Witness for C4 at a concrete four-step series failing at its second
step. -/
theorem C4_fast_stops_quick_continues_witness :
    run_series_on_repo false true
        ([itemPull] ++ itemAdd :: [itemCommit, itemPush]) repoPullFlag =
      (([itemPull] ++ [itemAdd]).map (fun i => i.operation), none) ∧
    run_repos false true ([itemPull] ++ itemAdd :: [itemCommit, itemPush])
        (repoPullFlag :: [repoCloneFlag]) =
      ((([itemPull] ++ [itemAdd]).map (fun i => i.operation)).map
            (fun op => (repoPullFlag, op)) ++
          (run_repos false true
            ([itemPull] ++ itemAdd :: [itemCommit, itemPush])
            [repoCloneFlag]).1,
        (run_repos false true
          ([itemPull] ++ itemAdd :: [itemCommit, itemPush])
          [repoCloneFlag]).2) ∧
    run_series_on_repo false false
        ([itemPull] ++ itemAdd :: [itemCommit, itemPush]) repoPullFlag =
      (([itemPull] ++ itemAdd :: [itemCommit, itemPush]).map
          (fun i => i.operation), none) :=
  C4_fast_stops_quick_continues [itemPull] [itemCommit, itemPush] itemAdd
    repoPullFlag [repoCloneFlag] rfl
    (by intro i hi; simp at hi; subst hi; rfl) rfl
    (by intro i hi; simp at hi; rcases hi with rfl | rfl <;> exact ⟨true, rfl⟩)

lemma run_repo_trace_kind (quiet bke : Bool) (items : List SeriesItem)
    (r : Repo) (pr : Repo × String)
    (h : pr ∈ (run_repo quiet bke items r).1) :
    pr.1 = r ∧ r.kind = some RepoKinds.GitRepo := by
  rcases hk : r.kind with _ | k
  · simp [run_repo, hk] at h
  · cases k with
    | GitRepo =>
      simp only [run_repo, hk, List.mem_map] at h
      obtain ⟨op, _, heq⟩ := h
      exact ⟨by rw [← heq], rfl⟩
    | GitHubRepo => simp [run_repo, hk] at h
    | GitLabRepo => simp [run_repo, hk] at h
    | GiteaRepo => simp [run_repo, hk] at h
    | UrlRepo => simp [run_repo, hk] at h
    | Link => simp [run_repo, hk] at h

lemma run_repos_trace_kind (quiet bke : Bool) (items : List SeriesItem)
    (rs : List Repo) (pr : Repo × String)
    (h : pr ∈ (run_repos quiet bke items rs).1) :
    pr.1.kind = some RepoKinds.GitRepo := by
  induction rs with
  | nil => simp [run_repos] at h
  | cons r rest ih =>
    simp only [run_repos] at h
    rcases hres : (run_repo quiet bke items r).2 with _ | m
    · rw [hres] at h
      simp only [List.mem_append] at h
      rcases h with h | h
      · obtain ⟨heq, hkind⟩ := run_repo_trace_kind quiet bke items r pr h
        rw [heq]
        exact hkind
      · exact ih h
    · rw [hres] at h
      obtain ⟨heq, hkind⟩ := run_repo_trace_kind quiet bke items r pr h
      rw [heq]
      exact hkind

lemma run_cats_trace_kind (quiet bke : Bool) (items : List SeriesItem)
    (cats : List Category) (pr : Repo × String)
    (h : pr ∈ (run_cats quiet bke items cats).1) :
    pr.1.kind = some RepoKinds.GitRepo := by
  induction cats with
  | nil => simp [run_cats] at h
  | cons cat rest ih =>
    simp only [run_cats] at h
    rcases hres : (run_repos quiet bke items (cat.repos.getD [])).2 with _ | m
    · rw [hres] at h
      simp only [List.mem_append] at h
      rcases h with h | h
      · exact run_repos_trace_kind quiet bke items _ pr h
      · exact ih h
    · rw [hres] at h
      exact run_repos_trace_kind quiet bke items _ pr h

lemma on_all_repos_go_all_ok (quiet : Bool) (f : Repo → OpResult)
    (rs : List Repo) (h : ∀ r ∈ rs, ∃ b, f r = OpResult.ok b) :
    on_all_repos_go quiet f rs = (rs, none) := by
  induction rs with
  | nil => rfl
  | cons r rest ih =>
    obtain ⟨b, hb⟩ := h r (List.mem_cons_self r rest)
    simp [on_all_repos_go, hb,
      ih (fun j hj => h j (List.mem_cons_of_mem r hj))]

lemma on_all_repos_spinner_all_ok (quiet : Bool) (f : Repo → OpResult)
    (cats : List Category)
    (h : ∀ r ∈ config_repos cats, ∃ b, f r = OpResult.ok b) :
    on_all_repos_spinner quiet f cats = (config_repos cats, none) := by
  induction cats with
  | nil => rfl
  | cons cat rest ih =>
    rcases hrep : cat.repos with _ | repos
    · have hrest := ih (fun r hr => h r (by simp [config_repos, hrep]; exact hr))
      simp [on_all_repos_spinner, hrep, config_repos, hrest]
    · have hgo : on_all_repos_go quiet f repos = (repos, none) := by
        refine on_all_repos_go_all_ok quiet f repos ?_
        intro r hr
        refine h r ?_
        simp [config_repos, hrep]
        exact Or.inl hr
      have hrest := ih (fun r hr => h r (by
        simp [config_repos, hrep]
        exact Or.inr hr))
      simp [on_all_repos_spinner, hrep, config_repos, hgo, hrest]

/-- C9: the multi-step runner executes step closures only for
repositories of kind `Some(GitRepo)` (any traced step belongs to such a
repository, so a repository of any other kind or of kind `None`
contributes no step), while the single-step batch runner underlying
`pull_all`, `clone_all`, `add_all`, `commit_all` and `commit_all_msg`
applies its operation to every repository of every category regardless of
kind. -/
theorem C9_kind_gating (quiet bke : Bool) (items : List SeriesItem)
    (c : Config) (f : Repo → OpResult)
    (hok : ∀ r ∈ config_repos c.categories, ∃ b, f r = OpResult.ok b) :
    (∀ pr ∈ (all_on_all quiet bke items c).1,
      pr.1.kind = some RepoKinds.GitRepo) ∧
    on_all_repos_spinner quiet f c.categories =
      (config_repos c.categories, none) :=
  ⟨fun pr h => run_cats_trace_kind quiet bke items c.categories pr h,
    on_all_repos_spinner_all_ok quiet f c.categories hok⟩

/-- A category holding one pull-capable GitRepo-kind repository. -/
def catW : Category := ⟨none, some [repoPullFlag], none⟩

/-- A category with no repository map at all. -/
def catEmpty : Category := ⟨none, none, none⟩

/-- A config with one populated category and one without repositories. -/
def configW : Config := ⟨[catW, catEmpty]⟩

/-- Witness for C9 at a concrete config and step function. -/
theorem C9_kind_gating_witness :
    (∀ pr ∈ (all_on_all false false [itemPull] configW).1,
      pr.1.kind = some RepoKinds.GitRepo) ∧
    on_all_repos_spinner false (fun _ => OpResult.ok true)
        configW.categories =
      (config_repos configW.categories, none) :=
  C9_kind_gating false false [itemPull] configW (fun _ => OpResult.ok true)
    (fun _ _ => ⟨true, rfl⟩)

lemma run_series_quiet_irrel (b1 b2 : Bool) (items : List SeriesItem)
    (r : Repo) :
    run_series_on_repo true b1 items r = run_series_on_repo true b2 items r := by
  induction items with
  | nil => rfl
  | cons i rest ih =>
    simp only [run_series_on_repo]
    cases i.closure r with
    | panic m => rfl
    | ok b => simp [ih]

lemma run_repo_quiet_irrel (b1 b2 : Bool) (items : List SeriesItem)
    (r : Repo) :
    run_repo true b1 items r = run_repo true b2 items r := by
  rcases hk : r.kind with _ | k
  · simp [run_repo, hk]
  · cases k <;> simp [run_repo, hk, run_series_quiet_irrel b1 b2 items r]

lemma run_repos_quiet_irrel (b1 b2 : Bool) (items : List SeriesItem)
    (rs : List Repo) :
    run_repos true b1 items rs = run_repos true b2 items rs := by
  induction rs with
  | nil => rfl
  | cons r rest ih =>
    simp only [run_repos]
    rw [run_repo_quiet_irrel b1 b2 items r, ih]

lemma run_cats_quiet_irrel (b1 b2 : Bool) (items : List SeriesItem)
    (cats : List Category) :
    run_cats true b1 items cats = run_cats true b2 items cats := by
  induction cats with
  | nil => rfl
  | cons cat rest ih =>
    simp only [run_cats]
    rw [run_repos_quiet_irrel b1 b2 items (cat.repos.getD []), ih]

lemma all_on_all_quiet_irrel (b1 b2 : Bool) (items : List SeriesItem)
    (c : Config) :
    all_on_all true b1 items c = all_on_all true b2 items c :=
  run_cats_quiet_irrel b1 b2 items c.categories

/-- C10: with the quiet setting on, the `break_on_err` parameter of the
runner has no effect at all, so `fast` behaves identically to `quick`,
and for a GitRepo-kind repository whose steps all return (no panic) every
step of the series is executed even after a failing step. -/
theorem C10_quiet_ignores_break (c : Config) (msg : String) (env : GitEnv)
    (b1 b2 : Bool) (items : List SeriesItem) (r : Repo)
    (hok : ∀ i ∈ items, ∃ b, i.closure r = OpResult.ok b) :
    Config.fast c msg env true = Config.quick c msg env true ∧
    all_on_all true b1 items c = all_on_all true b2 items c ∧
    run_series_on_repo true b1 items r =
      (items.map (fun i => i.operation), none) :=
  ⟨all_on_all_quiet_irrel true false (series_qf msg env) c,
    all_on_all_quiet_irrel b1 b2 items c,
    run_series_all_ok true b1 items r hok (Or.inl rfl)⟩

/-- Witness for C10 at a concrete config and a series whose only step
fails. -/
theorem C10_quiet_ignores_break_witness :
    Config.fast configW "m" envOk true = Config.quick configW "m" envOk true ∧
    all_on_all true true [itemAdd] configW =
      all_on_all true false [itemAdd] configW ∧
    run_series_on_repo true true [itemAdd] repoPullFlag =
      ([itemAdd].map (fun i => i.operation), none) :=
  C10_quiet_ignores_break configW "m" envOk true false [itemAdd] repoPullFlag
    (by intro i hi; simp at hi; subst hi; exact ⟨false, rfl⟩)

end Seidr
